import Mathlib

/-!
Verification of the Brazilian Room availability checker
(`src/check_availability.ts`), a single-file script that fetches daily
availability records from a reservation API over three configured date-range
chunks, filters them to Saturdays, classifies each day as available or not,
and dispatches a desktop notification and an ntfy.sh push.

The script is embedded shallowly:

* Calendar dates (`YYYY-MM-DD` strings parsed by `new Date(s + "T12:00:00")`
  at local noon) become a `Date` structure of year/month/day; the JavaScript
  `getDay()` weekday (0 = Sunday .. 6 = Saturday) is computed with the
  standard civil-calendar day-count.  Appending noon before parsing makes
  the local weekday equal the calendar date's weekday, so the embedding is
  the pure weekday of the calendar date.
* The `times` field of a daily record is declared `unknown[]` in TypeScript
  but is runtime JSON, so it is modelled as a JavaScript value `JVal`;
  `entry.times.length` is modelled by `jsLength` (member access throws on
  `undefined`/`null`, arrays and strings have a numeric `length`, other
  values yield `undefined`), and `x > 0` by `jsGtZero` (`undefined > 0` is
  `false` in JavaScript because the comparison goes through `NaN`).
* Network and OS effects are inputs: an `Env` carries the HTTP responses the
  reservation API would return for each chunk, the exit code of `osascript`,
  and the ntfy.sh response.  A run produces a trace of `Event`s (log lines,
  the attempted desktop notification, the attempted ntfy POST) plus the
  process exit code.
* Thrown JavaScript errors become `Except`; the top-level
  `main().catch(...)` handler becomes the error branch of `runMain`.
-/

/-- Config constant `RESOURCE_ID` (line 13 of the source). -/
def RESOURCE_ID : Nat := 150

/-- Config constant `RESOURCE_NAME` (line 14). -/
def RESOURCE_NAME : String := "Brazilian Room"

/-- Config constant `NTFY_TOPIC` (line 18). -/
def NTFY_TOPIC : String := "brazilian-room-pfr"

/-- Config constant `DATE_RANGES` (lines 22-26): June-August 2027 split into
chunks to stay within the 44-day API limit. -/
def DATE_RANGES : List (String × String) :=
  [("2027-06-01", "2027-07-14"),
   ("2027-07-15", "2027-08-27"),
   ("2027-08-28", "2027-08-31")]

/-- Config constant `STATUS_AVAILABLE` (line 33). -/
def STATUS_AVAILABLE : Int := 0

/-- A calendar date, the meaning of a `YYYY-MM-DD` string. -/
structure Date where
  year : Nat
  month : Nat
  day : Nat
deriving DecidableEq, Repr

/-- Days since the Unix epoch (1970-01-01) of a civil date, by the standard
days-from-civil computation (Gregorian calendar, era of 400 years =
146097 days).  `Int` division here is Euclidean, which agrees with floor
division for the positive divisors used. -/
def daysFromCivil (dt : Date) : Int :=
  let y : Int := if dt.month ≤ 2 then (dt.year : Int) - 1 else (dt.year : Int)
  let m : Int := dt.month
  let d : Int := dt.day
  let era : Int := y / 400
  let yoe : Int := y - era * 400
  let mp : Int := (m + 9) % 12
  let doy : Int := (153 * mp + 2) / 5 + d - 1
  let doe : Int := yoe * 365 + yoe / 4 - yoe / 100 + doy
  era * 146097 + doe - 719468

/-- JavaScript `Date.prototype.getDay()` of a date at local noon:
0 = Sunday .. 6 = Saturday.  1970-01-01 was a Thursday (= 4). -/
def jsGetDay (dt : Date) : Int :=
  (daysFromCivil dt + 4) % 7

/-- `isSaturday` (lines 51-54): the date string is parsed at local noon (so
timezone offsets cannot shift the day) and the weekday compared to 6. -/
def isSaturday (dt : Date) : Bool :=
  jsGetDay dt = 6

/-- Split a character list on the `-` separator (used to read the meaning of
a `YYYY-MM-DD` configuration string). -/
def splitDash : List Char → List (List Char)
  | [] => [[]]
  | c :: rest =>
    let r := splitDash rest
    if c = '-' then [] :: r
    else
      match r with
      | [] => [[c]]
      | g :: gs => (c :: g) :: gs

/-- Read a nonempty run of decimal digits as a number. -/
def natOfDigits (cs : List Char) : Option Nat :=
  if cs = [] then none
  else cs.foldl (fun acc c =>
    match acc with
    | none => none
    | some n => if c.isDigit then some (n * 10 + (c.toNat - 48)) else none) (some 0)

/-- The calendar date denoted by a `YYYY-MM-DD` string, if well-formed. -/
def parseYMD (s : String) : Option Date :=
  match splitDash s.data with
  | [y, m, d] =>
    match natOfDigits y, natOfDigits m, natOfDigits d with
    | some yn, some mn, some dn => some ⟨yn, mn, dn⟩
    | _, _, _ => none
  | _ => none

/-- Long month names as produced by `toLocaleDateString('en-US', {month:'long'})`. -/
def monthLong : Nat → String
  | 1 => "January" | 2 => "February" | 3 => "March" | 4 => "April"
  | 5 => "May" | 6 => "June" | 7 => "July" | 8 => "August"
  | 9 => "September" | 10 => "October" | 11 => "November" | 12 => "December"
  | _ => ""

/-- Short month names as produced by `toLocaleDateString('en-US', {month:'short'})`. -/
def monthShort : Nat → String
  | 1 => "Jan" | 2 => "Feb" | 3 => "Mar" | 4 => "Apr"
  | 5 => "May" | 6 => "Jun" | 7 => "Jul" | 8 => "Aug"
  | 9 => "Sep" | 10 => "Oct" | 11 => "Nov" | 12 => "Dec"
  | _ => ""

/-- Long weekday names indexed by `getDay()` values. -/
def weekdayLong : Int → String
  | 0 => "Sunday" | 1 => "Monday" | 2 => "Tuesday" | 3 => "Wednesday"
  | 4 => "Thursday" | 5 => "Friday" | 6 => "Saturday"
  | _ => ""

/-- `formatLabel` (lines 56-64): `en-US` long form, e.g.
`Saturday, June 5, 2027`.  The embedding assumes the host local timezone is
the configured display timezone (America/Los_Angeles), so the noon-anchored
date renders as the same calendar date. -/
def formatLabel (dt : Date) : String :=
  weekdayLong (jsGetDay dt) ++ ", " ++ monthLong dt.month ++ " " ++
    toString dt.day ++ ", " ++ toString dt.year

/-- `formatShort` (lines 66-72): `en-US` short form, e.g. `Jun 5`. -/
def formatShort (dt : Date) : String :=
  monthShort dt.month ++ " " ++ toString dt.day

/-- A runtime JavaScript value, as far as this script can observe one: the
`times` field of an API record is typed `unknown[]` but arrives as untyped
JSON.  `obj` stands for any object without a `length` own-property. -/
inductive JVal where
  | jundefined
  | jnull
  | jbool (b : Bool)
  | num (n : Int)
  | str (s : String)
  | arr (xs : List JVal)
  | obj

/-- JavaScript evaluation of `v.length`: member access on `undefined` or
`null` throws a `TypeError`; arrays and strings have a numeric `length`;
numbers, booleans and plain objects yield `undefined`. -/
def jsLength : JVal → Except Unit JVal
  | .jundefined => .error ()
  | .jnull => .error ()
  | .arr xs => .ok (.num xs.length)
  | .str s => .ok (.num s.length)
  | _ => .ok .jundefined

/-- JavaScript evaluation of `v > 0` for the values `jsLength` can produce:
a number compares numerically, `undefined` coerces to `NaN` and every `NaN`
comparison is `false`. -/
def jsGtZero : JVal → Bool
  | .num n => 0 < n
  | _ => false

/-- `DailyDetail` (line 103): one calendar day's record from the API.  The
date is the parsed calendar date; `times` keeps its runtime JSON value. -/
structure DailyDetail where
  date : Date
  status : Int
  times : JVal

/-- `data?.headers` of the API response envelope (fields optional because the
JSON is untrusted and read with optional chaining). -/
structure ApiHeaders where
  response_code : Option String
  response_message : Option String

/-- `data?.body?.details` of the envelope. -/
structure ApiDetails where
  daily_details : Option (List DailyDetail)

/-- `data?.body` of the envelope. -/
structure ApiBody where
  details : Option ApiDetails

/-- The parsed JSON body of a reservation-API response. -/
structure ApiResponse where
  headers : Option ApiHeaders
  body : Option ApiBody

/-- A transport-level HTTP response: `resp.ok` is true exactly for 2xx
statuses; `json` is the parsed body. -/
structure HttpResponse where
  ok : Bool
  status : Nat
  json : ApiResponse

/-- The two `throw new Error(...)` sites of `fetchRange`, with the data their
messages interpolate. -/
inductive FetchError where
  | transport (status : Nat) (startDate endDate : String)
  | api (msg : Option String) (startDate endDate : String)
deriving DecidableEq, Repr

/-- `data?.headers?.response_code` via optional chaining. -/
def responseCode (r : HttpResponse) : Option String :=
  r.json.headers.bind ApiHeaders.response_code

/-- `data?.headers?.response_message` via optional chaining. -/
def responseMessage (r : HttpResponse) : Option String :=
  r.json.headers.bind ApiHeaders.response_message

/-- `data?.body?.details?.daily_details ?? []` via optional chaining. -/
def dailyDetailsOf (r : HttpResponse) : List DailyDetail :=
  ((r.json.body.bind ApiBody.details).bind ApiDetails.daily_details).getD []

/-- `fetchRange` (lines 105-133) applied to the response the network returns
for the given range: throws on a non-2xx transport status, throws when the
embedded `response_code` is not the `'0000'` success sentinel (an absent
`headers` object also fails this comparison), and otherwise returns the
embedded `daily_details` list, defaulting to `[]` when the field is absent. -/
def fetchRange (startDate endDate : String) (resp : HttpResponse) :
    Except FetchError (List DailyDetail) :=
  if !resp.ok then
    .error (.transport resp.status startDate endDate)
  else if responseCode resp ≠ some "0000" then
    .error (.api (responseMessage resp) startDate endDate)
  else
    .ok (dailyDetailsOf resp)

/-- The fetch loop of `checkAvailability` (lines 136-141): ranges are fetched
strictly in order, results appended; the first throw aborts the loop and no
later range is fetched. -/
def fetchAll : List ((String × String) × HttpResponse) →
    Except FetchError (List DailyDetail)
  | [] => .ok []
  | c :: rest =>
    match fetchRange c.1.1 c.1.2 c.2 with
    | .error e => .error e
    | .ok ds =>
      match fetchAll rest with
      | .error e => .error e
      | .ok tail => .ok (ds ++ tail)

/-- The loop-body condition `entry.status === STATUS_AVAILABLE &&
entry.times.length > 0` (line 153), with JavaScript semantics: `&&`
short-circuits, so `times` is only touched when the status matches, and
member access on a missing `times` throws. -/
def entryAvailable (e : DailyDetail) : Except Unit Bool :=
  if e.status = STATUS_AVAILABLE then
    match jsLength e.times with
    | .error u => .error u
    | .ok v => .ok (jsGtZero v)
  else
    .ok false

/-- An observable step of a run: a log line (level, message), an attempted
desktop notification via `osascript`, or an attempted ntfy.sh POST. -/
inductive Event where
  | log (level : String) (message : String)
  | osascript (title : String) (message : String)
  | ntfyPost (title : String) (message : String)
deriving DecidableEq, Repr

/-- The classification loop of `checkAvailability` (lines 147-161): skip
non-Saturdays, log each Saturday's disposition, collect available dates in
encounter order.  Returns the log events emitted before any throw, and
either the collected dates or the `TypeError` that aborted the loop. -/
def classifyLoop : List DailyDetail → List Event × Except Unit (List Date)
  | [] => ([], .ok [])
  | e :: rest =>
    if isSaturday e.date then
      match entryAvailable e with
      | .error u => ([], .error u)
      | .ok b =>
        let ev := Event.log "INFO"
          ((if b then "  AVAILABLE on " else "  Not available on ") ++ formatLabel e.date)
        let p := classifyLoop rest
        (ev :: p.1,
         match p.2 with
         | .error u => .error u
         | .ok tail => .ok (if b then e.date :: tail else tail))
    else classifyLoop rest

/-- An error that aborts `checkAvailability`: a throw from `fetchRange`, or
the `TypeError` thrown by `entry.times.length` on a missing `times`. -/
inductive RunError where
  | fetchErr (e : FetchError)
  | typeErr

/-- The message of a thrown error, as interpolated by the source.  The text
of a `TypeError` is runtime-specific; the model fixes a placeholder, and no
theorem depends on it. -/
def errMessage : RunError → String
  | .fetchErr (.transport status s e) =>
      "API returned HTTP " ++ toString status ++ " for range " ++ s ++ "–" ++ e
  | .fetchErr (.api msg s e) =>
      "API error for range " ++ s ++ "–" ++ e ++ ": " ++ msg.getD "undefined"
  | .typeErr => "TypeError"

/-- `checkAvailability` (lines 135-162) applied to the responses the network
would return for the configured ranges, in order: fetch every chunk
(aborting on the first throw), warn when the concatenation is empty, then
filter and classify.  Returns the emitted log events and either the
available dates or the aborting error. -/
def checkAvailability (resps : List HttpResponse) :
    List Event × Except RunError (List Date) :=
  match fetchAll (DATE_RANGES.zip resps) with
  | .error e => ([], .error (.fetchErr e))
  | .ok allDetails =>
    let warnEvs : List Event :=
      if allDetails.length = 0 then
        [Event.log "WARNING" "API returned no daily_details — response may have changed."]
      else []
    let p := classifyLoop allDetails
    (warnEvs ++ p.1,
     match p.2 with
     | .error _ => .error .typeErr
     | .ok available => .ok available)

/-- The environment a run observes: the HTTP responses for the configured
chunks in order, the exit code `osascript` would return, and the ntfy.sh
response (`ok` flag and HTTP status). -/
structure Env where
  responses : List HttpResponse
  osaExit : Int
  ntfyOk : Bool
  ntfyStatus : Nat

/-- `sendNotification` (lines 74-82): spawn `osascript`, then log an error on
a non-zero exit code (without throwing) or an info line on success. -/
def sendNotification (osaExit : Int) (title message : String) : List Event :=
  [Event.osascript title message,
   if osaExit ≠ 0 then
     Event.log "ERROR" ("Desktop notification failed (exit code " ++ toString osaExit ++ ")")
   else
     Event.log "INFO" "Desktop notification sent."]

/-- `sendNtfy` (lines 84-99): POST to the ntfy topic, then log an error on a
non-2xx response (without throwing) or an info line on success. -/
def sendNtfy (ntfyOk : Bool) (ntfyStatus : Nat) (title message : String) : List Event :=
  [Event.ntfyPost title message,
   if !ntfyOk then
     Event.log "ERROR" ("ntfy notification failed (HTTP " ++ toString ntfyStatus ++ ")")
   else
     Event.log "INFO" "ntfy notification sent."]

/-- The outcome of one full run: the ordered trace of events and the process
exit code. -/
structure RunResult where
  events : List Event
  exitCode : Nat
deriving DecidableEq, Repr

/-- `main` plus the top-level `main().catch(...)` handler (lines 164-189):
log the banner, run the check; on a throw log `Fatal: <message>` and exit 1;
otherwise branch on whether any date is available — if so log the detail and
fire both the desktop notification and the ntfy push with the `AVAILABLE!`
title and pipe-separated short dates, else fire only the ntfy push with the
fixed not-available message — and exit 0. -/
def runMain (env : Env) : RunResult :=
  let banner := Event.log "INFO" ("=== " ++ RESOURCE_NAME ++ " availability check starting ===")
  match checkAvailability env.responses with
  | (evs, .error e) =>
    ⟨banner :: evs ++ [Event.log "ERROR" ("Fatal: " ++ errMessage e)], 1⟩
  | (evs, .ok available) =>
    let tailEvents :=
      if available.length > 0 then
        let summary := String.intercalate " | " (available.map formatShort)
        let detail := String.intercalate "\n" (available.map (fun d => "  • " ++ formatLabel d))
        Event.log "INFO" ("AVAILABLE DATES FOUND:\n" ++ detail) ::
          sendNotification env.osaExit (RESOURCE_NAME ++ " AVAILABLE!") ("Open on: " ++ summary) ++
          sendNtfy env.ntfyOk env.ntfyStatus (RESOURCE_NAME ++ " AVAILABLE!") ("Open on: " ++ summary)
      else
        sendNtfy env.ntfyOk env.ntfyStatus (RESOURCE_NAME ++ " NOT AVAILABLE!")
            "No availability found for any target Saturday." ++
          [Event.log "INFO" "No availability found for any target Saturday."]
    ⟨banner :: evs ++ tailEvents ++ [Event.log "INFO" "=== Check complete ===\n"], 0⟩

/-- The classification a Saturday record receives when its condition
evaluates without throwing: derived directly from `entryAvailable`, used to
characterise the loop. -/
def isAvailRecord (e : DailyDetail) : Bool :=
  isSaturday e.date &&
    (match entryAvailable e with
     | .ok b => b
     | .error _ => false)

/-- A configured chunk is well-formed: both endpoints parse, the start is not
after the end, and the span is at most 44 calendar days. -/
def chunkOk (p : String × String) : Bool :=
  match parseYMD p.1, parseYMD p.2 with
  | some ds, some de =>
      daysFromCivil ds ≤ daysFromCivil de && daysFromCivil de - daysFromCivil ds ≤ 44
  | _, _ => false

/-- Two chunks overlap when their closed day-intervals intersect; a chunk
that fails to parse is conservatively treated as overlapping everything. -/
def chunksOverlap (p q : String × String) : Bool :=
  match parseYMD p.1, parseYMD p.2, parseYMD q.1, parseYMD q.2 with
  | some ds, some de, some qs, some qe =>
      daysFromCivil ds ≤ daysFromCivil qe && daysFromCivil qs ≤ daysFromCivil de
  | _, _, _, _ => true

/-- Saturday, June 5, 2027 — a target-weekday date used as a concrete input. -/
def dSat : Date := ⟨2027, 6, 5⟩

/-- Sunday, June 6, 2027 — a non-target date used as a concrete input. -/
def dSun : Date := ⟨2027, 6, 6⟩

/-- A Saturday record with the available status and one time slot. -/
def satAvailRec : DailyDetail := ⟨dSat, 0, JVal.arr [JVal.jnull]⟩

/-- A Saturday record with the available status whose `times` field is
missing (`undefined`) at runtime. -/
def undefRec : DailyDetail := ⟨dSat, 0, JVal.jundefined⟩

/-- A well-formed successful API response carrying the given records. -/
def okResp (ds : List DailyDetail) : HttpResponse :=
  ⟨true, 200, ⟨some ⟨some "0000", none⟩, some ⟨some ⟨some ds⟩⟩⟩⟩

/-- An environment whose first chunk reports one available Saturday and in
which both notification channels succeed. -/
def envA : Env := ⟨[okResp [satAvailRec], okResp [], okResp []], 0, true, 200⟩

/-- An environment with one available Saturday in which `osascript` exits 1
and the ntfy POST returns HTTP 500. -/
def envFail : Env := ⟨[okResp [satAvailRec], okResp [], okResp []], 1, false, 500⟩

/-- An environment in which every chunk succeeds and returns no records. -/
def envEmpty : Env := ⟨[okResp [], okResp [], okResp []], 0, true, 200⟩

/-- An environment whose second chunk's fetch fails at the transport level
with HTTP 500. -/
def envBad : Env := ⟨[okResp [], ⟨false, 500, ⟨none, none⟩⟩, okResp []], 0, true, 200⟩

/-- An environment whose first chunk reports a Saturday record with the
available status and a missing `times` field. -/
def envUndef : Env := ⟨[okResp [undefRec], okResp [], okResp []], 0, true, 200⟩

/-- The loop condition throws exactly for an available-status record whose
`times` is `undefined` or `null` (the `&&` short-circuit protects every
other status). -/
theorem entryAvailable_error_iff (e : DailyDetail) :
    entryAvailable e = Except.error () ↔
      (e.status = STATUS_AVAILABLE ∧ (e.times = JVal.jundefined ∨ e.times = JVal.jnull)) := by
  unfold entryAvailable
  by_cases h : e.status = STATUS_AVAILABLE
  · cases ht : e.times <;> simp [h, ht, jsLength]
  · simp [h]

/-- On an array-valued `times`, the loop condition evaluates without throwing
to: status matches and the array is nonempty. -/
theorem entryAvailable_arr (e : DailyDetail) (ts : List JVal)
    (hts : e.times = JVal.arr ts) :
    entryAvailable e = Except.ok (decide (e.status = STATUS_AVAILABLE) && decide (0 < ts.length)) := by
  have h1 : jsLength (JVal.arr ts) = Except.ok (JVal.num ts.length) := rfl
  by_cases h : e.status = STATUS_AVAILABLE
  · simp [entryAvailable, h, hts, h1, jsGtZero]
  · simp [entryAvailable, h]

/-- Every date the classification loop returns lies on a Saturday. -/
theorem classifyLoop_mem_sat :
    ∀ (l : List DailyDetail) (res : List Date),
      (classifyLoop l).2 = Except.ok res → ∀ d ∈ res, isSaturday d = true := by
  intro l
  induction l with
  | nil =>
    intro res hres d hd
    simp [classifyLoop] at hres
    subst hres
    simp at hd
  | cons e rest ih =>
    intro res hres d hd
    by_cases hs : isSaturday e.date
    · rcases hb : entryAvailable e with u | b
      · simp [classifyLoop, hs, hb] at hres
      · rcases hp : (classifyLoop rest).2 with u | tail
        · simp [classifyLoop, hs, hb, hp] at hres
        · simp [classifyLoop, hs, hb, hp] at hres
          subst hres
          rcases b with _ | _
          · simp at hd
            exact ih tail hp d hd
          · simp at hd
            rcases hd with hd | hd
            · subst hd; exact hs
            · exact ih tail hp d hd
    · simp [classifyLoop, hs] at hres
      exact ih res hres d hd

/-- When no processed record throws, the classification loop returns exactly
the dates of the records that pass the Saturday filter and the availability
condition, in input order. -/
theorem classifyLoop_filter_eq :
    ∀ (l : List DailyDetail),
      (∀ e ∈ l, entryAvailable e ≠ Except.error ()) →
      (classifyLoop l).2 = Except.ok ((l.filter isAvailRecord).map DailyDetail.date) := by
  intro l
  induction l with
  | nil => intro _; simp [classifyLoop]
  | cons e rest ih =>
    intro h
    have he : entryAvailable e ≠ Except.error () := h e (List.mem_cons_self e rest)
    have ih' := ih (fun x hx => h x (List.mem_cons_of_mem e hx))
    by_cases hs : isSaturday e.date
    · rcases hb : entryAvailable e with u | b
      · cases u; exact absurd hb he
      · rcases b with _ | _
        · simp [classifyLoop, hs, hb, ih', List.filter_cons, isAvailRecord]
        · simp [classifyLoop, hs, hb, ih', List.filter_cons, isAvailRecord]
    · have hrec : isAvailRecord e = false := by
        simp [isAvailRecord, hs]
      simp [classifyLoop, hs, ih', List.filter_cons, hrec]

/-- The returned dates form an in-order subsequence of the dates of the
processed records. -/
theorem classifyLoop_sublist :
    ∀ (l : List DailyDetail) (res : List Date),
      (classifyLoop l).2 = Except.ok res → List.Sublist res (l.map DailyDetail.date) := by
  intro l
  induction l with
  | nil =>
    intro res hres
    simp [classifyLoop] at hres
    subst hres
    simp
  | cons e rest ih =>
    intro res hres
    by_cases hs : isSaturday e.date
    · rcases hb : entryAvailable e with u | b
      · simp [classifyLoop, hs, hb] at hres
      · rcases hp : (classifyLoop rest).2 with u | tail
        · simp [classifyLoop, hs, hb, hp] at hres
        · simp [classifyLoop, hs, hb, hp] at hres
          subst hres
          rcases b with _ | _
          · simp only [if_neg Bool.false_ne_true, List.map_cons]
            exact List.Sublist.cons _ (ih tail hp)
          · simp only [if_pos rfl, List.map_cons]
            exact List.Sublist.cons₂ _ (ih tail hp)
    · simp [classifyLoop, hs] at hres
      exact List.Sublist.cons _ (ih res hres)

/-- The classification loop throws exactly when some record on a Saturday
has the available status and a missing (`undefined`/`null`) `times`. -/
theorem classifyLoop_error_iff :
    ∀ (l : List DailyDetail),
      (classifyLoop l).2 = Except.error () ↔
        ∃ e ∈ l, isSaturday e.date = true ∧ e.status = STATUS_AVAILABLE ∧
          (e.times = JVal.jundefined ∨ e.times = JVal.jnull) := by
  intro l
  induction l with
  | nil => simp [classifyLoop]
  | cons e rest ih =>
    by_cases hs : isSaturday e.date
    · rcases hb : entryAvailable e with u | b
      · cases u
        have hP := (entryAvailable_error_iff e).mp hb
        constructor
        · intro _
          exact ⟨e, List.mem_cons_self e rest, hs, hP.1, hP.2⟩
        · intro _
          simp [classifyLoop, hs, hb]
      · rcases hp : (classifyLoop rest).2 with u | tail
        · cases u
          constructor
          · intro _
            rcases ih.mp hp with ⟨x, hx, h1, h2, h3⟩
            exact ⟨x, List.mem_cons_of_mem e hx, h1, h2, h3⟩
          · intro _
            simp [classifyLoop, hs, hb, hp]
        · constructor
          · intro hcon
            exfalso
            simp [classifyLoop, hs, hb, hp] at hcon
          · rintro ⟨x, hx, h1, h2, h3⟩
            exfalso
            rcases List.mem_cons.mp hx with h | h
            · subst h
              have hx' := (entryAvailable_error_iff x).mpr ⟨h2, h3⟩
              rw [hb] at hx'
              exact Except.noConfusion hx'
            · have hx' := ih.mpr ⟨x, h, h1, h2, h3⟩
              rw [hp] at hx'
              exact Except.noConfusion hx'
    · constructor
      · intro hcon
        have hcon' : (classifyLoop rest).2 = Except.error () := by
          simpa [classifyLoop, hs] using hcon
        rcases ih.mp hcon' with ⟨x, hx, h1, h2, h3⟩
        exact ⟨x, List.mem_cons_of_mem e hx, h1, h2, h3⟩
      · rintro ⟨x, hx, h1, h2, h3⟩
        have hx' : x ∈ rest := by
          rcases List.mem_cons.mp hx with h | h
          · subst h; exact absurd h1 (by simpa using hs)
          · exact h
        have hres := ih.mpr ⟨x, hx', h1, h2, h3⟩
        simpa [classifyLoop, hs] using hres

/-- Every event the classification loop emits is a log line. -/
theorem classifyLoop_events_log :
    ∀ (l : List DailyDetail), ∀ ev ∈ (classifyLoop l).1, ∃ lv m, ev = Event.log lv m := by
  intro l
  induction l with
  | nil => intro ev hev; simp [classifyLoop] at hev
  | cons e rest ih =>
    intro ev hev
    by_cases hs : isSaturday e.date
    · rcases hb : entryAvailable e with u | b
      · simp [classifyLoop, hs, hb] at hev
      · simp only [classifyLoop, hs, if_true, hb, List.mem_cons] at hev
        rcases hev with h | h
        · exact ⟨_, _, h⟩
        · exact ih ev h
    · simp only [classifyLoop, hs, if_false] at hev
      exact ih ev hev

/-- When every chunk's fetch succeeds, the fetch loop returns the chunk
results concatenated in configuration order. -/
theorem fetchAll_join :
    ∀ (chunks : List ((String × String) × HttpResponse)) (ls : List (List DailyDetail)),
      List.Forall₂ (fun c ds => fetchRange c.1.1 c.1.2 c.2 = Except.ok ds) chunks ls →
      fetchAll chunks = Except.ok ls.flatten := by
  intro chunks ls hf
  induction hf with
  | nil => simp [fetchAll]
  | cons h _ ih =>
    simp only [fetchAll, h, ih, List.flatten_cons]

/-- A successful check decomposes into a successful fetch of every chunk and
a throw-free classification of the concatenation. -/
theorem checkAvailability_ok (resps : List HttpResponse) (res : List Date)
    (h : (checkAvailability resps).2 = Except.ok res) :
    ∃ l, fetchAll (DATE_RANGES.zip resps) = Except.ok l ∧
      (classifyLoop l).2 = Except.ok res := by
  rcases hf : fetchAll (DATE_RANGES.zip resps) with e | l
  · rw [checkAvailability, hf] at h
    exact absurd h (by simp)
  · refine ⟨l, rfl, ?_⟩
    rcases hc : (classifyLoop l).2 with u | avail
    · exfalso
      rw [checkAvailability, hf] at h
      simp [hc] at h
    · have h2 : avail = res := by
        rw [checkAvailability, hf] at h
        simpa [hc] using h
      exact congrArg Except.ok h2

/-- Every event the checker emits is a log line (notifications happen only in
`main`). -/
theorem checkAvailability_events_log (resps : List HttpResponse) :
    ∀ ev ∈ (checkAvailability resps).1, ∃ lv m, ev = Event.log lv m := by
  intro ev hev
  rcases hf : fetchAll (DATE_RANGES.zip resps) with e | l
  · rw [checkAvailability, hf] at hev
    simp at hev
  · by_cases hl : l.length = 0
    · rw [checkAvailability, hf] at hev
      simp [hl] at hev
      rcases hev with h | h
      · exact ⟨_, _, h⟩
      · exact classifyLoop_events_log l ev h
    · rw [checkAvailability, hf] at hev
      simp [hl] at hev
      exact classifyLoop_events_log l ev hev

/-- C5: for every start/end date pair, the fetcher fails with an error when
the transport-level HTTP response is not 2xx; fails with an error when the
response body's embedded status code is not the success sentinel `'0000'`;
and otherwise returns the embedded `daily_details` list, returning an empty
list (without raising) when that field is absent. -/
theorem c5_fetchRange_contract (s e : String) (resp : HttpResponse) :
    (resp.ok = false → fetchRange s e resp = Except.error (FetchError.transport resp.status s e)) ∧
    (resp.ok = true → responseCode resp ≠ some "0000" →
      fetchRange s e resp = Except.error (FetchError.api (responseMessage resp) s e)) ∧
    (resp.ok = true → responseCode resp = some "0000" →
      fetchRange s e resp = Except.ok (dailyDetailsOf resp)) ∧
    (resp.ok = true → responseCode resp = some "0000" →
      (resp.json.body.bind ApiBody.details).bind ApiDetails.daily_details = none →
      fetchRange s e resp = Except.ok []) := by
  refine ⟨?_, ?_, ?_, ?_⟩
  · intro h
    simp [fetchRange, h]
  · intro h hc
    simp [fetchRange, h, hc]
  · intro h hc
    simp [fetchRange, h, hc]
  · intro h hc habs
    simp [fetchRange, h, hc, dailyDetailsOf, habs]

/-- Witness for C5: a concrete HTTP 500 response makes the fetcher fail with
the transport error. -/
theorem c5_witness :
    fetchRange "2027-06-01" "2027-07-14" ⟨false, 500, ⟨none, none⟩⟩ =
      Except.error (FetchError.transport 500 "2027-06-01" "2027-07-14") :=
  (c5_fetchRange_contract "2027-06-01" "2027-07-14" ⟨false, 500, ⟨none, none⟩⟩).1 rfl

/-- C9: every statically configured chunk parses, has its start not after its
end, spans at most 44 calendar days, and the configured chunks are pairwise
non-overlapping. -/
theorem c9_chunk_invariants :
    DATE_RANGES.all chunkOk = true ∧
    List.Pairwise (fun p q => chunksOverlap p q = false) DATE_RANGES := by
  constructor
  · decide
  · decide

/-- C2: for every daily record whose date does not fall on Saturday (weekday
taken at local noon of the calendar date), the checker never includes that
date in its result, regardless of the record's status or time-slot list. -/
theorem c2_non_saturday_excluded (resps : List HttpResponse) (res : List Date)
    (hres : (checkAvailability resps).2 = Except.ok res)
    (d : Date) (hd : isSaturday d = false) :
    d ∉ res := by
  intro hmem
  rcases checkAvailability_ok resps res hres with ⟨l, _, hc⟩
  have := classifyLoop_mem_sat l res hc d hmem
  rw [hd] at this
  exact Bool.noConfusion this

/-- Witness for C2: a run that finds Saturday June 5, 2027 available does
not contain Sunday June 6, 2027. -/
theorem c2_witness : dSun ∉ ([dSat] : List Date) :=
  c2_non_saturday_excluded envA.responses [dSat] rfl dSun (by decide)

/-- C1: among the records the checker processes, a target-weekday (Saturday)
record's date appears in the returned available list if and only if its
status equals the available sentinel (0) and its time-slot list is
non-empty; in particular an available-status record with an empty time-slot
list, and a non-available-status record with a non-empty time-slot list, are
both classified as not available.  (All records are assumed to carry
array-valued time-slot lists, as the API shape documents, and dates are
assumed distinct so that list membership identifies the record.) -/
theorem c1_classification_iff (l : List DailyDetail)
    (hwt : ∀ e' ∈ l, ∃ ts', e'.times = JVal.arr ts')
    (e : DailyDetail) (he : e ∈ l) (ts : List JVal) (hts : e.times = JVal.arr ts)
    (hsat : isSaturday e.date = true)
    (hnd : (l.map DailyDetail.date).Nodup)
    (res : List Date) (hres : (classifyLoop l).2 = Except.ok res) :
    e.date ∈ res ↔ (e.status = STATUS_AVAILABLE ∧ ts ≠ []) := by
  have hnoerr : ∀ x ∈ l, entryAvailable x ≠ Except.error () := by
    intro x hx hcon
    rcases hwt x hx with ⟨ts', hts'⟩
    rw [entryAvailable_arr x ts' hts'] at hcon
    exact Except.noConfusion hcon
  have hform := classifyLoop_filter_eq l hnoerr
  rw [hres] at hform
  have hres' : res = (l.filter isAvailRecord).map DailyDetail.date := by
    simpa using hform
  subst hres'
  have hinj := List.inj_on_of_nodup_map hnd
  have hiff : isAvailRecord e = true ↔ (e.status = STATUS_AVAILABLE ∧ ts ≠ []) := by
    rw [isAvailRecord, entryAvailable_arr e ts hts]
    simp [hsat, List.length_pos, And.comm]
  constructor
  · intro hmem
    rcases List.mem_map.mp hmem with ⟨x, hxf, hxd⟩
    rcases List.mem_filter.mp hxf with ⟨hxl, hxa⟩
    have hxe : x = e := hinj hxl he hxd
    subst hxe
    exact hiff.mp hxa
  · intro hcond
    exact List.mem_map_of_mem DailyDetail.date
      (List.mem_filter.mpr ⟨he, hiff.mpr hcond⟩)

/-- Witness for C1: the single-record run at a Saturday with status 0 and one
time slot includes that date. -/
theorem c1_witness : dSat ∈ ([dSat] : List Date) :=
  (c1_classification_iff [satAvailRec]
      (by intro e' he'; rw [List.mem_singleton] at he'; subst he'; exact ⟨[JVal.jnull], rfl⟩)
      satAvailRec (List.mem_singleton.mpr rfl) [JVal.jnull] rfl (by decide)
      (by simp) [dSat] rfl).mpr ⟨rfl, by simp⟩

/-- C7: chunks are fetched in the configured order and their record lists
concatenated without re-sorting or deduplication (the fetch loop returns the
flattening of the per-chunk results); the returned available-dates list is an
in-order subsequence of the concatenated records' dates; and a date reported
twice (as it would be by two overlapping chunks) appears twice in the
result. -/
theorem c7_order_preservation
    (chunks : List ((String × String) × HttpResponse)) (ls : List (List DailyDetail))
    (hf : List.Forall₂ (fun c ds => fetchRange c.1.1 c.1.2 c.2 = Except.ok ds) chunks ls)
    (l : List DailyDetail) (res : List Date)
    (hres : (classifyLoop l).2 = Except.ok res) :
    fetchAll chunks = Except.ok ls.flatten ∧
    List.Sublist res (l.map DailyDetail.date) ∧
    (∀ e : DailyDetail, isSaturday e.date = true → entryAvailable e = Except.ok true →
      (classifyLoop [e, e]).2 = Except.ok [e.date, e.date]) := by
  refine ⟨fetchAll_join chunks ls hf, classifyLoop_sublist l res hres, ?_⟩
  intro e hs hb
  simp [classifyLoop, hs, hb]

/-- Witness for C7: one chunk returning one available Saturday record. -/
theorem c7_witness :
    fetchAll [(("2027-06-01", "2027-07-14"), okResp [satAvailRec])] =
      Except.ok ([[satAvailRec]] : List (List DailyDetail)).flatten :=
  (c7_order_preservation
      [(("2027-06-01", "2027-07-14"), okResp [satAvailRec])] [[satAvailRec]]
      (List.Forall₂.cons rfl List.Forall₂.nil)
      [satAvailRec] [dSat] rfl).1

/-- C4: when any chunk fetch fails (transport non-2xx or API contract
error), the run emits exactly the banner and one `Fatal:`-prefixed error log
— hence no partial availability result and no notification of either kind —
and the process exits with code 1. -/
theorem c4_fetch_failure_fatal (env : Env) (fe : FetchError)
    (hf : fetchAll (DATE_RANGES.zip env.responses) = Except.error fe) :
    runMain env =
      ⟨[Event.log "INFO" ("=== " ++ RESOURCE_NAME ++ " availability check starting ==="),
        Event.log "ERROR" ("Fatal: " ++ errMessage (RunError.fetchErr fe))], 1⟩ ∧
    (∀ t m, Event.osascript t m ∉ (runMain env).events) ∧
    (∀ t m, Event.ntfyPost t m ∉ (runMain env).events) := by
  have hca : checkAvailability env.responses = ([], Except.error (RunError.fetchErr fe)) := by
    rw [checkAvailability, hf]
  have heq : runMain env =
      ⟨[Event.log "INFO" ("=== " ++ RESOURCE_NAME ++ " availability check starting ==="),
        Event.log "ERROR" ("Fatal: " ++ errMessage (RunError.fetchErr fe))], 1⟩ := by
    simp [runMain, hca]
  refine ⟨heq, ?_, ?_⟩ <;> intro t m <;> rw [heq] <;> simp

/-- Witness for C4: the environment whose second chunk returns HTTP 500. -/
theorem c4_witness :
    runMain envBad =
      ⟨[Event.log "INFO" ("=== " ++ RESOURCE_NAME ++ " availability check starting ==="),
        Event.log "ERROR" ("Fatal: " ++ errMessage (RunError.fetchErr
          (FetchError.transport 500 "2027-07-15" "2027-08-27")))], 1⟩ :=
  (c4_fetch_failure_fatal envBad (FetchError.transport 500 "2027-07-15" "2027-08-27") rfl).1

/-- C6: when every configured chunk fetch succeeds but the concatenated
record list is empty, the run logs the shape-drift warning, completes
normally with an empty available list, fires only the remote push with the
fixed not-available message, and exits with status 0. -/
theorem c6_empty_records_warn (env : Env)
    (_hlen : env.responses.length = DATE_RANGES.length)
    (hf : fetchAll (DATE_RANGES.zip env.responses) = Except.ok []) :
    runMain env =
      ⟨Event.log "INFO" ("=== " ++ RESOURCE_NAME ++ " availability check starting ===") ::
        Event.log "WARNING" "API returned no daily_details — response may have changed." ::
        sendNtfy env.ntfyOk env.ntfyStatus (RESOURCE_NAME ++ " NOT AVAILABLE!")
          "No availability found for any target Saturday." ++
        [Event.log "INFO" "No availability found for any target Saturday.",
         Event.log "INFO" "=== Check complete ===\n"], 0⟩ ∧
    (∀ t m, Event.osascript t m ∉ (runMain env).events) := by
  have hca : checkAvailability env.responses =
      ([Event.log "WARNING" "API returned no daily_details — response may have changed."],
       Except.ok []) := by
    rw [checkAvailability, hf]
    rfl
  have heq : runMain env =
      ⟨Event.log "INFO" ("=== " ++ RESOURCE_NAME ++ " availability check starting ===") ::
        Event.log "WARNING" "API returned no daily_details — response may have changed." ::
        sendNtfy env.ntfyOk env.ntfyStatus (RESOURCE_NAME ++ " NOT AVAILABLE!")
          "No availability found for any target Saturday." ++
        [Event.log "INFO" "No availability found for any target Saturday.",
         Event.log "INFO" "=== Check complete ===\n"], 0⟩ := by
    simp [runMain, hca, sendNtfy]
  refine ⟨heq, ?_⟩
  intro t m
  rw [heq]
  cases hb : env.ntfyOk <;> simp [sendNtfy, hb]

/-- Witness for C6: the all-chunks-empty environment. -/
theorem c6_witness :
    runMain envEmpty =
      ⟨Event.log "INFO" ("=== " ++ RESOURCE_NAME ++ " availability check starting ===") ::
        Event.log "WARNING" "API returned no daily_details — response may have changed." ::
        sendNtfy envEmpty.ntfyOk envEmpty.ntfyStatus (RESOURCE_NAME ++ " NOT AVAILABLE!")
          "No availability found for any target Saturday." ++
        [Event.log "INFO" "No availability found for any target Saturday.",
         Event.log "INFO" "=== Check complete ===\n"], 0⟩ :=
  (c6_empty_records_warn envEmpty rfl rfl).1

/-- C3: when availability is found, a failure of either notification channel
(non-zero `osascript` exit, non-2xx ntfy response) is logged as an error but
never raised: both channels are still attempted, the run completes its
remaining work (the completion banner is logged), and the process exit code
stays 0. -/
theorem c3_notification_best_effort (env : Env) (res : List Date)
    (hres : (checkAvailability env.responses).2 = Except.ok res) (hne : res ≠ []) :
    (runMain env).exitCode = 0 ∧
    Event.osascript (RESOURCE_NAME ++ " AVAILABLE!")
      ("Open on: " ++ String.intercalate " | " (res.map formatShort)) ∈ (runMain env).events ∧
    Event.ntfyPost (RESOURCE_NAME ++ " AVAILABLE!")
      ("Open on: " ++ String.intercalate " | " (res.map formatShort)) ∈ (runMain env).events ∧
    (env.osaExit ≠ 0 →
      Event.log "ERROR" ("Desktop notification failed (exit code " ++ toString env.osaExit ++ ")")
        ∈ (runMain env).events) ∧
    (env.ntfyOk = false →
      Event.log "ERROR" ("ntfy notification failed (HTTP " ++ toString env.ntfyStatus ++ ")")
        ∈ (runMain env).events) ∧
    Event.log "INFO" "=== Check complete ===\n" ∈ (runMain env).events := by
  rcases hca : checkAvailability env.responses with ⟨evs, r⟩
  rw [hca] at hres
  simp only at hres
  subst hres
  have hlen : res.length > 0 := List.length_pos.mpr hne
  refine ⟨?_, ?_, ?_, ?_, ?_, ?_⟩
  · simp [runMain, hca, hlen]
  · simp [runMain, hca, hlen, sendNotification, sendNtfy]
  · simp [runMain, hca, hlen, sendNotification, sendNtfy]
  · intro ho
    simp [runMain, hca, hlen, sendNotification, sendNtfy, ho]
  · intro hn
    simp [runMain, hca, hlen, sendNotification, sendNtfy, hn]
  · simp [runMain, hca, hlen]

/-- Witness for C3: one available Saturday with both channels failing. -/
theorem c3_witness : (runMain envFail).exitCode = 0 :=
  (c3_notification_best_effort envFail [dSat] rfl (by simp)).1

/-- C8: a run that completes without a fatal error exits 0; if at least one
date is available, both the local alert and the remote push fire with a
title containing `AVAILABLE!` and a body listing the short-form available
dates pipe-separated; if no date is available, only the remote push fires,
with the fixed not-available message. -/
theorem c8_notification_dispatch (env : Env) (res : List Date)
    (hres : (checkAvailability env.responses).2 = Except.ok res) :
    (runMain env).exitCode = 0 ∧
    (res ≠ [] →
      Event.osascript (RESOURCE_NAME ++ " AVAILABLE!")
        ("Open on: " ++ String.intercalate " | " (res.map formatShort)) ∈ (runMain env).events ∧
      Event.ntfyPost (RESOURCE_NAME ++ " AVAILABLE!")
        ("Open on: " ++ String.intercalate " | " (res.map formatShort)) ∈ (runMain env).events ∧
      ∃ p, RESOURCE_NAME ++ " AVAILABLE!" = p ++ "AVAILABLE!") ∧
    (res = [] →
      Event.ntfyPost (RESOURCE_NAME ++ " NOT AVAILABLE!")
        "No availability found for any target Saturday." ∈ (runMain env).events ∧
      (∀ t m, Event.osascript t m ∉ (runMain env).events)) := by
  rcases hca : checkAvailability env.responses with ⟨evs, r⟩
  rw [hca] at hres
  simp only at hres
  subst hres
  refine ⟨?_, ?_, ?_⟩
  · by_cases h0 : res.length > 0 <;> simp [runMain, hca, h0]
  · intro hne
    have hlen : res.length > 0 := List.length_pos.mpr hne
    refine ⟨?_, ?_, ⟨RESOURCE_NAME ++ " ", by decide⟩⟩
    · simp [runMain, hca, hlen, sendNotification]
    · simp [runMain, hca, hlen, sendNtfy]
  · intro hemp
    subst hemp
    have hlog : ∀ ev ∈ evs, ∃ lv mm, ev = Event.log lv mm := by
      intro ev hev
      exact checkAvailability_events_log env.responses ev (by rw [hca]; exact hev)
    constructor
    · simp [runMain, hca, sendNtfy]
    · intro t m hmem
      cases hb : env.ntfyOk <;>
        simp [runMain, hca, sendNtfy, hb] at hmem <;>
        · rcases hlog _ hmem with ⟨lv, mm, hev⟩
          exact Event.noConfusion hev

/-- Witness for C8: the environment with one available Saturday and both
channels succeeding. -/
theorem c8_witness : (runMain envA).exitCode = 0 :=
  (c8_notification_dispatch envA [dSat] rfl).1

/-- Counterexample to C10 as stated: a Saturday record whose `times` is the
number 5 (not an array, not missing) is classified without throwing — `(5).length`
is `undefined` and `undefined > 0` is `false` — and a Saturday record with
non-available status and a missing `times` also does not throw, because `&&`
short-circuits before `times` is touched.  In both cases the record is
treated as not available instead of aborting the run. -/
theorem c10_counterexample :
    isSaturday dSat = true ∧
    (classifyLoop [⟨dSat, 0, JVal.num 5⟩]).2 = Except.ok [] ∧
    (classifyLoop [⟨dSat, 1, JVal.jundefined⟩]).2 = Except.ok [] :=
  ⟨by decide, rfl, rfl⟩

/-- C10 (amended): the classification throws — aborting the whole run
through the top-level handler with exit code 1 and no notification of either
kind — exactly when some fetched record on a target-weekday date has the
available status (0) AND its `times` field is missing (`undefined` or
`null`); any other ill-typed `times`, and any record with a non-available
status, is handled without throwing. -/
theorem c10_missing_times_aborts (env : Env) (l : List DailyDetail)
    (hf : fetchAll (DATE_RANGES.zip env.responses) = Except.ok l) :
    ((classifyLoop l).2 = Except.error () ↔
      ∃ e ∈ l, isSaturday e.date = true ∧ e.status = STATUS_AVAILABLE ∧
        (e.times = JVal.jundefined ∨ e.times = JVal.jnull)) ∧
    ((classifyLoop l).2 = Except.error () →
      (runMain env).exitCode = 1 ∧
      (∃ m, Event.log "ERROR" ("Fatal: " ++ m) ∈ (runMain env).events) ∧
      (∀ t m, Event.osascript t m ∉ (runMain env).events) ∧
      (∀ t m, Event.ntfyPost t m ∉ (runMain env).events)) := by
  refine ⟨classifyLoop_error_iff l, ?_⟩
  intro herr
  refine ⟨?_, ⟨errMessage RunError.typeErr, ?_⟩, ?_, ?_⟩
  · simp [runMain, checkAvailability, hf, herr]
  · simp [runMain, checkAvailability, hf, herr]
  · intro t m hmem
    by_cases hl : l.length = 0 <;>
      · simp [runMain, checkAvailability, hf, herr, hl] at hmem
        rcases classifyLoop_events_log l _ hmem with ⟨lv, mm, hev⟩
        exact Event.noConfusion hev
  · intro t m hmem
    by_cases hl : l.length = 0 <;>
      · simp [runMain, checkAvailability, hf, herr, hl] at hmem
        rcases classifyLoop_events_log l _ hmem with ⟨lv, mm, hev⟩
        exact Event.noConfusion hev

/-- Witness for the amended C10: a run whose first chunk carries a Saturday
record with status 0 and `times` `undefined` exits with code 1. -/
theorem c10_witness : (runMain envUndef).exitCode = 1 :=
  ((c10_missing_times_aborts envUndef [undefRec] rfl).2 rfl).1
